import Mathlib

-- Verification development for the dvc experiments core:
--   src/dvc/repo/experiments/apply.py
--   src/dvc/repo/experiments/executor/local.py
--   src/dvc/repo/worktree.py
-- The git backend (scmrepo) is external to the repository and is modelled by
-- explicit state: a working tree (tracked and untracked file contents), a
-- stash stack, and ref stores.  Fallible backend calls are modelled with
-- Except; failures injected into a run are carried by explicit behaviour
-- records so that every failure path of the source can be exercised.

namespace Dvc

-- Well-known experiment ref names.  dvc/repo/experiments/refs.py is not among
-- the provided sources; these constants are modelled from the spec: well-known
-- ref names (exact strings, case-sensitive, under a reserved namespace) acting
-- as the wire protocol, plus a TEMP-namespace prefix for transient refs.

def EXEC_HEAD : String := "refs/exps/exec/EXEC_HEAD"

def EXEC_MERGE : String := "refs/exps/exec/EXEC_MERGE"

def EXEC_BASELINE : String := "refs/exps/exec/EXEC_BASELINE"

def EXEC_BRANCH : String := "refs/exps/exec/EXEC_BRANCH"

def EXEC_CHECKPOINT : String := "refs/exps/exec/EXEC_CHECKPOINT"

def EXEC_APPLY : String := "refs/exps/exec/EXEC_APPLY"

-- Association-list maps, used for file contents and ref stores.

def lookupF {α : Type} (m : List (String × α)) (k : String) : Option α :=
  match m with
  | [] => none
  | p :: rest => if p.1 = k then some p.2 else lookupF rest k

def setF {α : Type} (m : List (String × α)) (k : String) (v : α) : List (String × α) :=
  match m with
  | [] => [(k, v)]
  | p :: rest => if p.1 = k then (k, v) :: rest else p :: setF rest k v

def removeF {α : Type} (m : List (String × α)) (k : String) : List (String × α) :=
  match m with
  | [] => []
  | p :: rest => if p.1 = k then removeF rest k else p :: removeF rest k

-- ## Working tree and stash model for the apply workflow (apply.py)

/-- A working tree: contents of tracked files and of untracked files. -/
structure Workspace where
  tracked : List (String × String)
  untracked : List (String × String)
deriving DecidableEq, Repr

/-- Git-visible state used by `apply`: the pristine tracked contents of the
HEAD commit, the current working tree, the stash stack (most recent first) and
the ref store.  HEAD itself never moves during `apply` (the merge is an
uncommitted squash), so only its tree is kept. -/
structure GitState where
  headFiles : List (String × String)
  ws : Workspace
  stash : List Workspace
  refs : List (String × String)
deriving DecidableEq, Repr

/-- scm.is_dirty(untracked_files=True): tracked contents differ from HEAD or
untracked files exist. -/
def isDirty (s : GitState) : Bool :=
  decide (s.ws.tracked ≠ s.headFiles) || decide (s.ws.untracked ≠ [])

/-- scm.stash.push(include_untracked=True): snapshot the working tree onto the
stash stack and reset the tree to the clean HEAD checkout. -/
def stashPush (s : GitState) : GitState :=
  { s with ws := ⟨s.headFiles, []⟩, stash := s.ws :: s.stash }

/-- scm.stash.drop(): discard the most recent stash entry. -/
def stashDrop (s : GitState) : GitState :=
  { s with stash := s.stash.tail }

/-- scm.stash.pop(): restore the most recent stash entry and remove it.  In
this development pop is only ever invoked on a clean working tree whose HEAD
equals the stash base (the situation `_clean_and_pop` establishes), where git
restores the snapshot exactly. -/
def stashPop (s : GitState) : GitState :=
  match s.stash with
  | [] => s
  | w :: rest => { s with ws := w, stash := rest }

/-- scm.reset(hard=True): tracked files back to HEAD, untracked files kept. -/
def resetHard (s : GitState) : GitState :=
  { s with ws := { s.ws with tracked := s.headFiles } }

/-- _clean_and_pop (apply.py lines 120-127): hard reset, then if untracked
leftovers keep the tree dirty, push-and-drop them (discarding them), then pop
the original snapshot back onto the working tree. -/
def cleanAndPop (s : GitState) : GitState :=
  let s1 := resetHard s
  let s2 := if isDirty s1 then stashDrop (stashPush s1) else s1
  stashPop s2

-- ## Failure injection for one `apply` run

/-- Outcome of the with-body of `_apply_workspace` as used by `apply`
(apply.py lines 64-68): the uncommitted squash merge of the experiment commit.
`scmMerge` is an SCMError from scm.merge, re-raised as GitMergeError;
`arbitrary` is any other exception escaping the body.  The backend merge is
modelled as failing atomically (the spec treats merge as an opaque backend
capability); on success it produces the new tracked contents. -/
inductive BodyExc
  | scmMerge
  | arbitrary
deriving DecidableEq, Repr

/-- An injected failure of the re-apply phase (apply.py lines 108-117:
scm.reset(); stash.apply; stash.drop).  `scmLike` is a MergeConflictError or
SCMError, `arbitrary` any other exception; each carries the (arbitrary)
working tree the failed operation left behind, which the rollback must undo. -/
inductive ReapplyExc
  | scmLike (mid : Workspace)
  | arbitrary (mid : Workspace)
deriving DecidableEq, Repr

/-- All backend outcomes injected into one `apply` run. -/
structure ApplyBehavior where
  mergeResult : Except BodyExc (List (String × String))
  conflicts : List String
  reapplyExc : Option ReapplyExc
deriving Repr

/-- Errors `apply` can raise. -/
inductive ApplyErr
  | invalidExpRev (rev : String)
  | gitMerge
  | applyConflict (rev : String)
  | other
deriving DecidableEq, Repr

/-- Observable backend calls made during one `apply` run. -/
inductive ApplyEvent
  | stashPushEv
  | mergeAttempt
  | stashApplyEv (skipConflicts : Bool)
  | stashDropEv
  | rollbackEv
  | setApplyRef (rev : String)
deriving DecidableEq, Repr

/-- scm.stash.apply on tracked contents: bring each stashed hunk back unless
its file conflicts with the merged contents and conflicts are skipped. -/
def applyStashFiles (cur entry : List (String × String)) (conflicts : List String) :
    List (String × String) :=
  entry.foldl (fun acc p => if p.1 ∈ conflicts then acc else setF acc p.1 p.2) cur

/-- scm.stash.apply on a whole working tree: stashed untracked files are
restored alongside the tracked hunks. -/
def applyStashWS (cur entry : Workspace) (conflicts : List String) : Workspace :=
  ⟨applyStashFiles cur.tracked entry.tracked conflicts,
   entry.untracked.foldl (fun acc p => setF acc p.1 p.2) cur.untracked⟩

-- ## Resolution environment for `apply` (apply.py lines 39-60)

/-- Inputs to revision resolution.  resolve_rev, Experiments.check_baseline and
celery_queue.get_ref_and_entry_by_names live outside the provided sources, so
their outcomes are environment data: `resolvedRev` is the direct resolution
(none models RevError), `baselineMatches r` the check_baseline outcome,
`expRef` a matching completed experiment ref as (baseline_sha, target rev),
`queueEntry` a matching queued entry as (baseline_rev, stash_rev), and
`headRev` the current baseline commit scm.get_rev(). -/
structure ResolveEnv where
  resolvedRev : Option String
  baselineMatches : String → Bool
  expRef : Option (String × String)
  queueEntry : Option (String × String)
  headRev : String

/-- Revision resolution of `apply` (apply.py lines 39-60).  Returns the
resolved experiment rev and the is_stash flag, or InvalidExpRevError.  A
BaselineMismatchError from check_baseline and a baseline mismatch of either
fallback both surface as InvalidExpRevError. -/
def resolveExpRev (env : ResolveEnv) (rev : String) : Except ApplyErr (String × Bool) :=
  match env.resolvedRev with
  | some r =>
      if env.baselineMatches r then Except.ok (r, false)
      else Except.error (ApplyErr.invalidExpRev rev)
  | none =>
      match env.expRef with
      | some q =>
          if env.headRev ≠ q.1 then Except.error (ApplyErr.invalidExpRev rev)
          else Except.ok (q.2, false)
      | none =>
          match env.queueEntry with
          | some q =>
              if q.1 ≠ env.headRev then Except.error (ApplyErr.invalidExpRev rev)
              else Except.ok (q.2, true)
          | none => Except.error (ApplyErr.invalidExpRev rev)

-- ## The apply workflow proper

/-- `_apply_workspace` (apply.py lines 88-117) with the with-body being the
squash merge performed by `apply` (lines 64-68).  Returns the final state, or
the raised error together with the state at raise time, plus the event log. -/
def applyWorkspacePhase (rev : String) (force : Bool) (b : ApplyBehavior)
    (s : GitState) : Except (ApplyErr × GitState) GitState × List ApplyEvent :=
  let dirty := isDirty s
  let s0 := if dirty then stashPush s else s
  let log0 : List ApplyEvent := if dirty then [ApplyEvent.stashPushEv] else []
  match b.mergeResult with
  | Except.error e =>
      let err := match e with
        | BodyExc.scmMerge => ApplyErr.gitMerge
        | BodyExc.arbitrary => ApplyErr.other
      if dirty then
        (Except.error (err, cleanAndPop s0),
         log0 ++ [ApplyEvent.mergeAttempt, ApplyEvent.rollbackEv])
      else (Except.error (err, s0), log0 ++ [ApplyEvent.mergeAttempt])
  | Except.ok t =>
      let s1 := { s0 with ws := { s0.ws with tracked := t } }
      if dirty then
        match b.reapplyExc with
        | some (ReapplyExc.scmLike mid) =>
            (Except.error (ApplyErr.applyConflict rev, cleanAndPop { s1 with ws := mid }),
             log0 ++ [ApplyEvent.mergeAttempt, ApplyEvent.rollbackEv])
        | some (ReapplyExc.arbitrary mid) =>
            (Except.error (ApplyErr.other, cleanAndPop { s1 with ws := mid }),
             log0 ++ [ApplyEvent.mergeAttempt, ApplyEvent.rollbackEv])
        | none =>
            if !force && !b.conflicts.isEmpty then
              (Except.error (ApplyErr.applyConflict rev, cleanAndPop s1),
               log0 ++ [ApplyEvent.mergeAttempt, ApplyEvent.stashApplyEv force,
                        ApplyEvent.rollbackEv])
            else
              match s1.stash with
              | [] =>
                  (Except.ok s1,
                   log0 ++ [ApplyEvent.mergeAttempt, ApplyEvent.stashApplyEv force,
                            ApplyEvent.stashDropEv])
              | entry :: rest =>
                  let s2 := { s1 with ws := applyStashWS s1.ws entry b.conflicts, stash := rest }
                  (Except.ok s2,
                   log0 ++ [ApplyEvent.mergeAttempt, ApplyEvent.stashApplyEv force,
                            ApplyEvent.stashDropEv])
      else (Except.ok s1, log0 ++ [ApplyEvent.mergeAttempt])

/-- `apply` (apply.py lines 26-85): resolve the revision, run the workspace
phase, and on success record the applied commit under EXEC_APPLY.  The trailing
scm.reset() is a mixed reset (index only, identity on the modelled state);
packed-args cleanup and dvc_checkout act outside the modelled state. -/
def applyModel (env : ResolveEnv) (rev : String) (force : Bool) (b : ApplyBehavior)
    (s : GitState) : Except (ApplyErr × GitState) GitState × List ApplyEvent :=
  match resolveExpRev env rev with
  | Except.error e => (Except.error (e, s), [])
  | Except.ok rs =>
      match applyWorkspacePhase rev force b s with
      | (Except.error p, log) => (Except.error p, log)
      | (Except.ok s1, log) =>
          (Except.ok { s1 with refs := setF s1.refs EXEC_APPLY rs.1 },
           log ++ [ApplyEvent.setApplyRef rs.1])


-- ## Concrete sample data used by witnesses and counterexamples

def exEnvOk : ResolveEnv :=
  { resolvedRev := some "e1", baselineMatches := fun _ => true,
    expRef := none, queueEntry := none, headRev := "h0" }

def exEnvUnknown : ResolveEnv :=
  { resolvedRev := none, baselineMatches := fun _ => true,
    expRef := none, queueEntry := none, headRev := "h0" }

def exStateDirty : GitState :=
  ⟨[("a.txt", "clean")], ⟨[("a.txt", "dirty")], []⟩, [], []⟩

def exMergeFailB : ApplyBehavior :=
  { mergeResult := Except.error BodyExc.scmMerge, conflicts := [],
    reapplyExc := none }

def exMidJunk : Workspace := ⟨[("a.txt", "half-merged")], [("junk.tmp", "x")]⟩

def exReapplyArbB : ApplyBehavior :=
  { mergeResult := Except.ok [("a.txt", "expcontent")], conflicts := [],
    reapplyExc := some (ReapplyExc.arbitrary exMidJunk) }

def exReapplyScmB : ApplyBehavior :=
  { mergeResult := Except.ok [("a.txt", "expcontent")], conflicts := [],
    reapplyExc := some (ReapplyExc.scmLike exMidJunk) }

def exConflictB : ApplyBehavior :=
  { mergeResult := Except.ok [("a.txt", "expcontent")], conflicts := ["a.txt"],
    reapplyExc := none }


-- ## Executor models (executor/local.py)

/-- A ref store value: a direct commit pointer or a symbolic ref. -/
inductive RefVal
  | direct (rev : String)
  | symbolic (target : String)
deriving DecidableEq, Repr

/-- The rev scm.get_ref reports for a ref value (a symbolic ref resolves to
its target). -/
def refValRev : RefVal → String
  | RefVal.direct r => r
  | RefVal.symbolic t => t

/-- Observable events of an init_git run: rwlock lease acquire/release,
checkout and merge. -/
inductive Event
  | acquire
  | release
  | checkout (target : String) (detach : Bool)
  | mergeEv (rev : String)
deriving DecidableEq, Repr

/-- True when every checkout and merge event happens while no rwlock lease is
held (lease depth 0). -/
def handoffOutsideLock : Nat → List Event → Bool
  | _, [] => true
  | d, Event.acquire :: rest => handoffOutsideLock (d + 1) rest
  | d, Event.release :: rest => handoffOutsideLock (d - 1) rest
  | d, Event.checkout _ _ :: rest => (d == 0) && handoffOutsideLock d rest
  | d, Event.mergeEv _ :: rest => (d == 0) && handoffOutsideLock d rest

/-- Errors an init_git attempt can raise. -/
inductive ExecErr
  | lockError
  | gitMerge
deriving DecidableEq, Repr

/-- Inputs of init_git: the stash entry fields, the requested branch and (for
the tempdir push) the base repository value of that branch. -/
structure InitGitInput where
  headRev : String
  baselineRev : String
  stashRev : String
  branch : Option String
  branchRev : String
deriving DecidableEq, Repr

/-- State of a TempDirExecutor run: refs of the base repository, refs of the
fresh executor repository, and the executor checkout (target, detached). -/
structure TempDirState where
  baseRefs : List (String × RefVal)
  execRefs : List (String × RefVal)
  execHead : Option (String × Bool)
deriving DecidableEq, Repr

def TEMP_HEAD : String := "refs/exps/temp/head"

def TEMP_MERGE : String := "refs/exps/temp/merge"

def TEMP_BASELINE : String := "refs/exps/temp/baseline"

/-- TempDirExecutor.init_git (local.py lines 74-141), one attempt with the
rwlock available: set the three temp refs in the base repo under the write
lease, push them (and the branch, under a nested read lease) into the
executor repo as the stable EXEC refs, set or clear EXEC_BRANCH, clear a
stale EXEC_CHECKPOINT, drop the temp refs, release the lease, then check out
the head detached and squash-merge EXEC_MERGE without committing.  In the
source the temp names carry a per-attempt unique suffix; a single attempt is
modelled, so fixed names suffice.  Returns final state, event log, result. -/
def tdPushed (inp : InitGitInput) (s : TempDirState) : List (String × RefVal) :=
  setF (setF (setF s.execRefs EXEC_HEAD (RefVal.direct inp.headRev))
    EXEC_MERGE (RefVal.direct inp.stashRev)) EXEC_BASELINE (RefVal.direct inp.baselineRev)

/-- Executor-repo refs after the EXEC_BRANCH step (local.py lines 118-126):
EXEC_BRANCH set symbolically when a branch was requested, otherwise any
stale EXEC_BRANCH removed; in the branch case the branch ref itself was also
pushed. -/
def tdBranchRefs (inp : InitGitInput) (s : TempDirState) : List (String × RefVal) :=
  match inp.branch with
  | some b =>
      setF (setF (tdPushed inp s) b (RefVal.direct inp.branchRev))
        EXEC_BRANCH (RefVal.symbolic b)
  | none =>
      match lookupF (tdPushed inp s) EXEC_BRANCH with
      | some _ => removeF (tdPushed inp s) EXEC_BRANCH
      | none => tdPushed inp s

/-- Executor-repo refs after the stale-EXEC_CHECKPOINT removal
(local.py lines 128-129). -/
def tdExecRefs (inp : InitGitInput) (s : TempDirState) : List (String × RefVal) :=
  match lookupF (tdBranchRefs inp s) EXEC_CHECKPOINT with
  | some _ => removeF (tdBranchRefs inp s) EXEC_CHECKPOINT
  | none => tdBranchRefs inp s

def tempdirInitGit (inp : InitGitInput) (mergeFails : Bool) (s : TempDirState) :
    TempDirState × List Event × Except ExecErr Unit :=
  let base1 := setF (setF (setF s.baseRefs TEMP_HEAD (RefVal.direct inp.headRev))
    TEMP_MERGE (RefVal.direct inp.stashRev)) TEMP_BASELINE (RefVal.direct inp.baselineRev)
  let branchEvents : List Event :=
    match inp.branch with
    | some _ => [Event.acquire, Event.release]
    | none => []
  let base2 := removeF (removeF (removeF base1 TEMP_HEAD) TEMP_MERGE) TEMP_BASELINE
  let headTarget := match inp.branch with | some _ => EXEC_BRANCH | none => EXEC_HEAD
  let log := Event.acquire :: branchEvents ++
    [Event.release, Event.checkout headTarget true, Event.mergeEv inp.stashRev]
  let s1 : TempDirState := ⟨base2, tdExecRefs inp s, some (headTarget, true)⟩
  if mergeFails then (s1, log, Except.error ExecErr.gitMerge)
  else (s1, log, Except.ok ())

/-- State of a WorkspaceExecutor run: the single shared repository refs and
the current checkout. -/
structure WorkspaceState where
  refs : List (String × RefVal)
  head : String
deriving DecidableEq, Repr

/-- WorkspaceExecutor.init_git (local.py lines 205-240), one attempt with the
rwlock available: inside the EXEC_NAMESPACE write lease, set EXEC_HEAD,
EXEC_MERGE and EXEC_BASELINE, detach HEAD onto EXEC_HEAD, squash-merge
EXEC_MERGE without committing, then set or clear EXEC_BRANCH; the lease is
released on scope exit (also when the merge raises). -/
def wsSetRefs (inp : InitGitInput) (s : WorkspaceState) : List (String × RefVal) :=
  setF (setF (setF s.refs EXEC_HEAD (RefVal.direct inp.headRev))
    EXEC_MERGE (RefVal.direct inp.stashRev)) EXEC_BASELINE (RefVal.direct inp.baselineRev)

/-- Workspace refs after the EXEC_BRANCH step that follows a successful merge
(local.py lines 237-240). -/
def wsFinalRefs (inp : InitGitInput) (s : WorkspaceState) : List (String × RefVal) :=
  match inp.branch with
  | some b => setF (wsSetRefs inp s) EXEC_BRANCH (RefVal.symbolic b)
  | none =>
      match lookupF (wsSetRefs inp s) EXEC_BRANCH with
      | some _ => removeF (wsSetRefs inp s) EXEC_BRANCH
      | none => wsSetRefs inp s

def workspaceInitGit (inp : InitGitInput) (mergeFails : Bool) (s : WorkspaceState) :
    WorkspaceState × List Event × Except ExecErr Unit :=
  let log := [Event.acquire, Event.checkout inp.headRev true,
    Event.mergeEv inp.stashRev, Event.release]
  if mergeFails then
    (⟨wsSetRefs inp s, inp.headRev⟩, log, Except.error ExecErr.gitMerge)
  else (⟨wsFinalRefs inp s, inp.headRev⟩, log, Except.ok ())

/-- WorkspaceExecutor.cleanup (local.py lines 245-255) on the modelled ref
state: remove EXEC_BASELINE and EXEC_MERGE, remove EXEC_BRANCH when set, and
publish the current EXEC_CHECKPOINT value as EXEC_APPLY exactly when it
exists and differs from the value recorded at construction
(local.py line 189); the detach-stack exit then restores the original HEAD.
Infofile removal acts outside the modelled state. -/
def wcR2 (s : WorkspaceState) : List (String × RefVal) :=
  removeF (removeF s.refs EXEC_BASELINE) EXEC_MERGE

/-- Refs after the conditional EXEC_BRANCH removal of cleanup
(local.py lines 251-252). -/
def wcR3 (s : WorkspaceState) : List (String × RefVal) :=
  match lookupF (wcR2 s) EXEC_BRANCH with
  | some _ => removeF (wcR2 s) EXEC_BRANCH
  | none => wcR2 s

/-- Refs after the conditional EXEC_APPLY publication of cleanup
(local.py lines 253-255). -/
def wcR4 (origCheckpoint : Option String) (s : WorkspaceState) :
    List (String × RefVal) :=
  match lookupF (wcR3 s) EXEC_CHECKPOINT with
  | some v =>
      if origCheckpoint ≠ some (refValRev v) then
        setF (wcR3 s) EXEC_APPLY (RefVal.direct (refValRev v))
      else wcR3 s
  | none => wcR3 s

def workspaceCleanup (origCheckpoint : Option String) (origHead : String)
    (s : WorkspaceState) : WorkspaceState :=
  ⟨wcR4 origCheckpoint s, origHead⟩

-- ## Retry decorator (funcy.retry as used on init_git)

/-- funcy.retry(tries, errors, timeout): up to `tries` calls of the body; an
error satisfying `retryable` is retried after sleeping `timeoutSec` seconds
unless it occurred on the last attempt, any other error is re-raised at once.
Returns the result, the number of calls made, and the total seconds slept. -/
def retryLoop {E A : Type} (timeoutSec : Nat) (retryable : E → Bool)
    (f : Nat → Except E A) : Nat → Nat → Except E A × Nat × Nat
  | attempt, 0 => (f attempt, 1, 0)
  | attempt, Nat.succ rest =>
      match f attempt with
      | Except.ok a => (Except.ok a, 1, 0)
      | Except.error e =>
          if retryable e then
            if rest = 0 then (Except.error e, 1, 0)
            else
              let p := retryLoop timeoutSec retryable f (attempt + 1) rest
              (p.1, p.2.1 + 1, p.2.2 + timeoutSec)
          else (Except.error e, 1, 0)

/-- The retry predicate of the decorator: errors=LockError. -/
def isLockError : ExecErr → Bool
  | ExecErr.lockError => true
  | ExecErr.gitMerge => false

/-- One retried attempt of TempDirExecutor.init_git: when the rwlock is held
by another writer at attempt i, the body raises LockError before mutating
anything; otherwise the handoff of this attempt runs. -/
def tempdirAttempt (lockFreeAt : Nat → Bool) (mergeFails : Bool)
    (inp : InitGitInput) (s : TempDirState) (i : Nat) :
    Except ExecErr (TempDirState × List Event) :=
  if lockFreeAt i then
    match tempdirInitGit inp mergeFails s with
    | (s1, log, Except.ok _) => Except.ok (s1, log)
    | (_, _, Except.error e) => Except.error e
  else Except.error ExecErr.lockError

/-- TempDirExecutor.init_git under its decorator
retry(180, errors=LockError, timeout=1). -/
def tempdirInitGitRetried (lockFreeAt : Nat → Bool) (mergeFails : Bool)
    (inp : InitGitInput) (s : TempDirState) :
    Except ExecErr (TempDirState × List Event) × Nat × Nat :=
  retryLoop 1 isLockError (tempdirAttempt lockFreeAt mergeFails inp s) 0 180

/-- One retried attempt of WorkspaceExecutor.init_git. -/
def workspaceAttempt (lockFreeAt : Nat → Bool) (mergeFails : Bool)
    (inp : InitGitInput) (s : WorkspaceState) (i : Nat) :
    Except ExecErr (WorkspaceState × List Event) :=
  if lockFreeAt i then
    match workspaceInitGit inp mergeFails s with
    | (s1, log, Except.ok _) => Except.ok (s1, log)
    | (_, _, Except.error e) => Except.error e
  else Except.error ExecErr.lockError

/-- WorkspaceExecutor.init_git under its decorator
retry(180, errors=LockError, timeout=1). -/
def workspaceInitGitRetried (lockFreeAt : Nat → Bool) (mergeFails : Bool)
    (inp : InitGitInput) (s : WorkspaceState) :
    Except ExecErr (WorkspaceState × List Event) × Nat × Nat :=
  retryLoop 1 isLockError (workspaceAttempt lockFreeAt mergeFails inp s) 0 180

-- ## Temp directory creation (TempDirExecutor.from_stash_entry)

/-- The temp-work area under repo.tmp_dir/EXEC_TMP_DIR (or the given wdir),
with directories as abstract numeric ids. -/
structure TmpFS where
  dirs : List Nat
deriving DecidableEq, Repr

def maxDir (l : List Nat) : Nat := l.foldr max 0

/-- tempfile.mkdtemp(dir=parent_dir): a fresh, uniquely named directory. -/
def mkdtemp (fs : TmpFS) : Nat × TmpFS :=
  (maxDir fs.dirs + 1, ⟨(maxDir fs.dirs + 1) :: fs.dirs⟩)

/-- TempDirExecutor.from_stash_entry (local.py lines 164-182): ensure the
parent area exists, create a fresh uniquely named temp dir, construct the
executor rooted there (cls._from_stash_entry lives outside the provided
sources; modelled from the spec as constructing an executor rooted at the
given directory, which may raise); on any exception remove the temp dir and
re-raise. -/
def from_stash_entry (ctorFails : Bool) (fs : TmpFS) : Except TmpFS (TmpFS × Nat) :=
  let p := mkdtemp fs
  if ctorFails then Except.error ⟨p.2.dirs.filter (fun d => decide (d ≠ p.1))⟩
  else Except.ok (p.2, p.1)

-- ## Worktree views (worktree.py)

/-- A dvc Output as far as remote grouping is concerned.  IndexView
(dvc/repo/index.py, outside the provided sources) is represented by its list
of outputs; restricting a view with a composed outs_filter restricts that
list. -/
structure Output where
  name : String
  remote : Option String
deriving DecidableEq, Repr

/-- worktree_view_by_remotes (worktree.py lines 43-73) on a worktree view:
collect the distinct remotes of the view outputs; with at most one distinct
remote yield the unfiltered view once under that remote (None when there are
no outputs), otherwise yield one restricted view per distinct remote. -/
def worktree_view_by_remotes (view : List Output) :
    List (Option String × List Output) :=
  let remotes := (view.map (fun o => o.remote)).dedup
  if remotes.length ≤ 1 then
    [(remotes.head?.getD none, view)]
  else
    remotes.map (fun r => (r, view.filter (fun o => decide (o.remote = r))))

-- ## Concrete executor and worktree sample data

def exInp : InitGitInput := ⟨"h1", "b1", "s1", none, ""⟩

def exInpBr : InitGitInput := ⟨"h1", "b1", "s1", some "feat", "f1"⟩

def exTD : TempDirState := ⟨[], [], none⟩

def exWS : WorkspaceState := ⟨[], "refs/heads/main"⟩

def exWSCkpt : WorkspaceState :=
  ⟨[(EXEC_CHECKPOINT, RefVal.direct "c0")], "refs/heads/main"⟩

def exFS : TmpFS := ⟨[1, 0]⟩

def exViewOne : List Output := [⟨"o1", some "r1"⟩, ⟨"o2", some "r1"⟩]

def exViewTwo : List Output := [⟨"o1", some "r1"⟩, ⟨"o2", some "r2"⟩]

-- ## Theorems

-- ## Rollback correctness

/-- `_clean_and_pop` restores the snapshot exactly: starting from any working
tree a failed step left behind, with the pre-apply snapshot on top of the
stash, the hard reset, untracked discard and pop reproduce the pre-apply
state. -/
theorem cleanAndPop_push_any (s : GitState) (w : Workspace) :
    cleanAndPop ⟨s.headFiles, w, s.ws :: s.stash, s.refs⟩ = s := by
  by_cases h : w.untracked = [] <;>
    simp [cleanAndPop, resetHard, isDirty, stashPush, stashDrop, stashPop, h]

/-- Any error raised out of the workspace phase carries exactly the pre-phase
git state. -/
theorem applyWorkspacePhase_error_state (rev : String) (force : Bool)
    (b : ApplyBehavior) (s : GitState) (e : ApplyErr) (s2 : GitState)
    (h : (applyWorkspacePhase rev force b s).1 = Except.error (e, s2)) : s2 = s := by
  rcases hm : b.mergeResult with be | t
  · cases hd : isDirty s <;>
      simp [applyWorkspacePhase, hm, hd, stashPush, cleanAndPop_push_any] at h <;>
      exact h.2.symm
  · cases hd : isDirty s
    · simp [applyWorkspacePhase, hm, hd] at h
    · rcases hre : b.reapplyExc with _ | ex
      · cases hf : (!force && !b.conflicts.isEmpty)
        · simp [applyWorkspacePhase, hm, hd, hre, hf, stashPush] at h
        · simp [applyWorkspacePhase, hm, hd, hre, hf, stashPush,
            cleanAndPop_push_any] at h
          exact h.2.symm
      · rcases ex with mid | mid <;>
          simp [applyWorkspacePhase, hm, hd, hre, stashPush,
            cleanAndPop_push_any] at h <;>
          exact h.2.symm

/-- Claim C1: whenever `apply` returns by raising (merge failure, re-apply
failure, or any other exception raised inside the workspace scope after the
stash-snapshot decision), the working tree -- tracked contents and dirty/clean
status, for initially clean and initially dirty trees alike -- equals what it
was immediately before the call; in fact the whole modelled git state is
restored. -/
theorem apply_rollback_complete (env : ResolveEnv) (rev : String) (force : Bool)
    (b : ApplyBehavior) (s : GitState) (e : ApplyErr) (s2 : GitState)
    (h : (applyModel env rev force b s).1 = Except.error (e, s2)) :
    s2 = s ∧ s2.ws.tracked = s.ws.tracked ∧ isDirty s2 = isDirty s := by
  have hs : s2 = s := by
    rcases hr : resolveExpRev env rev with er | rr
    · simp [applyModel, hr] at h
      exact h.2.symm
    · rcases hp : applyWorkspacePhase rev force b s with ⟨res, log⟩
      rcases res with ⟨pe, ps⟩ | s3
      · have h1 : (applyWorkspacePhase rev force b s).1 = Except.error (pe, ps) := by
          rw [hp]
        have h2 := applyWorkspacePhase_error_state rev force b s pe ps h1
        subst h2
        simp [applyModel, hr, hp] at h
        exact h.2.symm
      · simp [applyModel, hr, hp] at h
  subst hs
  exact ⟨rfl, rfl, rfl⟩

-- Concrete sample data used by witnesses and counterexamples.

/-- Witness for C1 at a concrete dirty state with an injected merge failure. -/
theorem apply_rollback_complete_w :
    exStateDirty = exStateDirty ∧
      exStateDirty.ws.tracked = exStateDirty.ws.tracked ∧
      isDirty exStateDirty = isDirty exStateDirty :=
  apply_rollback_complete exEnvOk "exp-1" true exMergeFailB exStateDirty
    ApplyErr.gitMerge exStateDirty rfl

/-- Claim C2: if the given name/revision resolves (directly, as a completed
experiment ref, or as a queued stash entry) to something whose recorded
baseline differs from the current baseline commit, or resolves to none of
these, then `apply` raises InvalidExpRevError with no merge attempted (empty
event log, so no stash push and no merge) and the git state -- refs and
working tree -- untouched. -/
theorem apply_baseline_gating (env : ResolveEnv) (rev : String) (force : Bool)
    (b : ApplyBehavior) (s : GitState)
    (h : (∃ r, env.resolvedRev = some r ∧ env.baselineMatches r = false)
      ∨ (env.resolvedRev = none ∧ ∃ q, env.expRef = some q ∧ env.headRev ≠ q.1)
      ∨ (env.resolvedRev = none ∧ env.expRef = none ∧
          ∃ q, env.queueEntry = some q ∧ q.1 ≠ env.headRev)
      ∨ (env.resolvedRev = none ∧ env.expRef = none ∧ env.queueEntry = none)) :
    applyModel env rev force b s =
      (Except.error (ApplyErr.invalidExpRev rev, s), []) := by
  have hres : resolveExpRev env rev = Except.error (ApplyErr.invalidExpRev rev) := by
    rcases h with ⟨r, h1, h2⟩ | ⟨h1, q, h2, h3⟩ | ⟨h1, h2, q, h3, h4⟩ | ⟨h1, h2, h3⟩
    · simp [resolveExpRev, h1, h2]
    · simp [resolveExpRev, h1, h2, h3]
    · simp [resolveExpRev, h1, h2, h3, h4]
    · simp [resolveExpRev, h1, h2, h3]
  simp [applyModel, hres]

/-- Witness for C2: a name that resolves to nothing. -/
theorem apply_baseline_gating_w :
    applyModel exEnvUnknown "nope" true exMergeFailB exStateDirty =
      (Except.error (ApplyErr.invalidExpRev "nope", exStateDirty), []) :=
  apply_baseline_gating exEnvUnknown "nope" true exMergeFailB exStateDirty
    (Or.inr (Or.inr (Or.inr ⟨rfl, rfl, rfl⟩)))

/-- Claim C3 (amended): after a stash snapshot and a successful squash merge,
any failure of the re-apply phase first performs the full rollback (the raised
error carries exactly the pre-apply state) and then raises: ApplyConflictError
when the failure is a merge-conflict or SCM error (including a conflicting
hunk with force=false), but the original exception, not ApplyConflictError,
for any other exception. -/
theorem apply_reapply_failure_rollback (env : ResolveEnv) (rev : String)
    (force : Bool) (b : ApplyBehavior) (s : GitState) (r : String) (st : Bool)
    (t : List (String × String))
    (hres : resolveExpRev env rev = Except.ok (r, st))
    (hd : isDirty s = true) (hm : b.mergeResult = Except.ok t) :
    (∀ mid, b.reapplyExc = some (ReapplyExc.scmLike mid) →
        (applyModel env rev force b s).1 =
          Except.error (ApplyErr.applyConflict rev, s))
    ∧ (∀ mid, b.reapplyExc = some (ReapplyExc.arbitrary mid) →
        (applyModel env rev force b s).1 = Except.error (ApplyErr.other, s))
    ∧ (b.reapplyExc = none → force = false → b.conflicts ≠ [] →
        (applyModel env rev force b s).1 =
          Except.error (ApplyErr.applyConflict rev, s)) := by
  refine ⟨?_, ?_, ?_⟩
  · intro mid hre
    simp [applyModel, hres, applyWorkspacePhase, hm, hd, hre, stashPush,
      cleanAndPop_push_any]
  · intro mid hre
    simp [applyModel, hres, applyWorkspacePhase, hm, hd, hre, stashPush,
      cleanAndPop_push_any]
  · intro hre hf hc
    rcases hcs : b.conflicts with _ | ⟨c0, cs⟩
    · exact absurd hcs hc
    · simp [applyModel, hres, applyWorkspacePhase, hm, hd, hre, hf, hcs,
        stashPush, cleanAndPop_push_any]

/-- Counterexample to C3 as stated: an arbitrary (non-SCM) exception during
the re-apply phase is rolled back but re-raised as itself, not as
ApplyConflictError. -/
theorem apply_reapply_arbitrary_not_conflict_cex :
    (applyModel exEnvOk "exp-1" true exReapplyArbB exStateDirty).1 =
      Except.error (ApplyErr.other, exStateDirty)
    ∧ ApplyErr.other ≠ ApplyErr.applyConflict "exp-1" :=
  ⟨rfl, by decide⟩

/-- Witness for the amended C3 at a concrete input with an SCM failure during
re-apply. -/
theorem apply_reapply_failure_rollback_w :
    (applyModel exEnvOk "exp-1" true exReapplyScmB exStateDirty).1 =
      Except.error (ApplyErr.applyConflict "exp-1", exStateDirty) :=
  (apply_reapply_failure_rollback exEnvOk "exp-1" true exReapplyScmB exStateDirty
    "e1" false [("a.txt", "expcontent")] rfl rfl rfl).1 exMidJunk rfl

/-- Claim C6: after a stash snapshot and a successful merge, the snapshot is
re-applied with conflicting hunks skipped exactly when force is set, and then
dropped; with force=false a conflicting hunk fails the run with
ApplyConflictError and the whole pre-apply working tree (in particular every
conflicted file, which thus keeps the original dirty content) is restored. -/
theorem apply_reapply_force_semantics (env : ResolveEnv) (rev : String)
    (force : Bool) (b : ApplyBehavior) (s : GitState) (r : String) (st : Bool)
    (t : List (String × String))
    (hres : resolveExpRev env rev = Except.ok (r, st))
    (hd : isDirty s = true) (hm : b.mergeResult = Except.ok t)
    (hre : b.reapplyExc = none) :
    (force = true →
      applyModel env rev force b s =
        (Except.ok ⟨s.headFiles, applyStashWS ⟨t, []⟩ s.ws b.conflicts, s.stash,
           setF s.refs EXEC_APPLY r⟩,
         [ApplyEvent.stashPushEv, ApplyEvent.mergeAttempt,
          ApplyEvent.stashApplyEv true, ApplyEvent.stashDropEv,
          ApplyEvent.setApplyRef r]))
    ∧ (force = false → b.conflicts = [] →
      applyModel env rev force b s =
        (Except.ok ⟨s.headFiles, applyStashWS ⟨t, []⟩ s.ws b.conflicts, s.stash,
           setF s.refs EXEC_APPLY r⟩,
         [ApplyEvent.stashPushEv, ApplyEvent.mergeAttempt,
          ApplyEvent.stashApplyEv false, ApplyEvent.stashDropEv,
          ApplyEvent.setApplyRef r]))
    ∧ (force = false → b.conflicts ≠ [] →
      applyModel env rev force b s =
        (Except.error (ApplyErr.applyConflict rev, s),
         [ApplyEvent.stashPushEv, ApplyEvent.mergeAttempt,
          ApplyEvent.stashApplyEv false, ApplyEvent.rollbackEv])) := by
  refine ⟨?_, ?_, ?_⟩
  · intro hf
    simp [applyModel, hres, applyWorkspacePhase, hm, hd, hre, hf, stashPush]
  · intro hf hc
    simp [applyModel, hres, applyWorkspacePhase, hm, hd, hre, hf, hc, stashPush]
  · intro hf hc
    rcases hcs : b.conflicts with _ | ⟨c0, cs⟩
    · exact absurd hcs hc
    · simp [applyModel, hres, applyWorkspacePhase, hm, hd, hre, hf, hcs,
        stashPush, cleanAndPop_push_any]

/-- Witness for C6 at a concrete dirty state with a conflicting hunk and
force=true. -/
theorem apply_reapply_force_semantics_w :
    applyModel exEnvOk "exp-1" true exConflictB exStateDirty =
      (Except.ok ⟨exStateDirty.headFiles,
         applyStashWS ⟨[("a.txt", "expcontent")], []⟩ exStateDirty.ws
           exConflictB.conflicts, exStateDirty.stash,
         setF exStateDirty.refs EXEC_APPLY "e1"⟩,
       [ApplyEvent.stashPushEv, ApplyEvent.mergeAttempt,
        ApplyEvent.stashApplyEv true, ApplyEvent.stashDropEv,
        ApplyEvent.setApplyRef "e1"]) :=
  (apply_reapply_force_semantics exEnvOk "exp-1" true exConflictB exStateDirty
    "e1" false [("a.txt", "expcontent")] rfl rfl rfl rfl).1 rfl

-- ## Association-map lemmas

theorem lookupF_setF_eq {α : Type} (m : List (String × α)) (k : String) (v : α) :
    lookupF (setF m k v) k = some v := by
  induction m with
  | nil => simp [setF, lookupF]
  | cons p rest ih =>
      by_cases h : p.1 = k <;> simp [setF, lookupF, h, ih]

theorem lookupF_setF_ne {α : Type} (m : List (String × α)) (k k2 : String) (v : α)
    (h : k2 ≠ k) : lookupF (setF m k v) k2 = lookupF m k2 := by
  induction m with
  | nil => simp [setF, lookupF, Ne.symm h]
  | cons p rest ih =>
      by_cases hp : p.1 = k
      · simp [setF, lookupF, hp, Ne.symm h]
      · simp [setF, lookupF, hp, ih]

theorem lookupF_removeF_eq {α : Type} (m : List (String × α)) (k : String) :
    lookupF (removeF m k) k = none := by
  induction m with
  | nil => simp [removeF, lookupF]
  | cons p rest ih =>
      by_cases h : p.1 = k <;> simp [removeF, lookupF, h, ih]

theorem lookupF_removeF_ne {α : Type} (m : List (String × α)) (k k2 : String)
    (h : k2 ≠ k) : lookupF (removeF m k) k2 = lookupF m k2 := by
  induction m with
  | nil => simp [removeF, lookupF]
  | cons p rest ih =>
      by_cases hp : p.1 = k
      · simp [removeF, lookupF, hp, Ne.symm h, ih]
      · simp [removeF, lookupF, hp, ih]

-- ## Handoff ref lemmas

theorem tdBranchRefs_branch_lookup (inp : InitGitInput) (s : TempDirState) :
    lookupF (tdBranchRefs inp s) EXEC_BRANCH = inp.branch.map RefVal.symbolic := by
  rcases hb : inp.branch with _ | b
  · rcases hl : lookupF (tdPushed inp s) EXEC_BRANCH with _ | v <;>
      simp [tdBranchRefs, hb, hl, lookupF_removeF_eq]
  · simp [tdBranchRefs, hb, lookupF_setF_eq]

theorem tdExecRefs_branch_lookup (inp : InitGitInput) (s : TempDirState) :
    lookupF (tdExecRefs inp s) EXEC_BRANCH = inp.branch.map RefVal.symbolic := by
  have hne : EXEC_BRANCH ≠ EXEC_CHECKPOINT := by decide
  rcases hc : lookupF (tdBranchRefs inp s) EXEC_CHECKPOINT with _ | v <;>
    simp [tdExecRefs, hc, lookupF_removeF_ne _ _ _ hne, tdBranchRefs_branch_lookup]

theorem tdExecRefs_checkpoint_lookup (inp : InitGitInput) (s : TempDirState) :
    lookupF (tdExecRefs inp s) EXEC_CHECKPOINT = none := by
  rcases hc : lookupF (tdBranchRefs inp s) EXEC_CHECKPOINT with _ | v <;>
    simp [tdExecRefs, hc, lookupF_removeF_eq]

theorem tempdirInitGit_execRefs (inp : InitGitInput) (mf : Bool) (s : TempDirState) :
    (tempdirInitGit inp mf s).1.execRefs = tdExecRefs inp s := by
  cases mf <;> rfl

theorem wsFinalRefs_branch_lookup (inp : InitGitInput) (s : WorkspaceState) :
    lookupF (wsFinalRefs inp s) EXEC_BRANCH = inp.branch.map RefVal.symbolic := by
  rcases hb : inp.branch with _ | b
  · rcases hl : lookupF (wsSetRefs inp s) EXEC_BRANCH with _ | v <;>
      simp [wsFinalRefs, hb, hl, lookupF_removeF_eq]
  · simp [wsFinalRefs, hb, lookupF_setF_eq]

theorem wsSetRefs_checkpoint (inp : InitGitInput) (s : WorkspaceState) :
    lookupF (wsSetRefs inp s) EXEC_CHECKPOINT = lookupF s.refs EXEC_CHECKPOINT := by
  have h1 : EXEC_CHECKPOINT ≠ EXEC_BASELINE := by decide
  have h2 : EXEC_CHECKPOINT ≠ EXEC_MERGE := by decide
  have h3 : EXEC_CHECKPOINT ≠ EXEC_HEAD := by decide
  unfold wsSetRefs
  rw [lookupF_setF_ne _ _ _ _ h1, lookupF_setF_ne _ _ _ _ h2,
    lookupF_setF_ne _ _ _ _ h3]

theorem wsFinalRefs_checkpoint (inp : InitGitInput) (s : WorkspaceState) :
    lookupF (wsFinalRefs inp s) EXEC_CHECKPOINT = lookupF s.refs EXEC_CHECKPOINT := by
  have hbc : EXEC_CHECKPOINT ≠ EXEC_BRANCH := by decide
  rcases hb : inp.branch with _ | b
  · rcases hl : lookupF (wsSetRefs inp s) EXEC_BRANCH with _ | v <;>
      simp [wsFinalRefs, hb, hl, lookupF_removeF_ne _ _ _ hbc, wsSetRefs_checkpoint]
  · simp [wsFinalRefs, hb, lookupF_setF_ne _ _ _ _ hbc, wsSetRefs_checkpoint]

/-- Claim C4 (amended): TempDirExecutor.init_git performs the detached
checkout and the uncommitted squash merge only after every handoff lease has
been released, while WorkspaceExecutor.init_git performs them inside the held
lease; in both variants a merge failure is raised as GitMergeError, not a
lock or protocol error. -/
theorem init_git_lease_and_merge (inp : InitGitInput) (mf : Bool)
    (s : TempDirState) (w : WorkspaceState) :
    handoffOutsideLock 0 (tempdirInitGit inp mf s).2.1 = true
    ∧ handoffOutsideLock 0 (workspaceInitGit inp mf w).2.1 = false
    ∧ (mf = true →
        (tempdirInitGit inp mf s).2.2 = Except.error ExecErr.gitMerge
        ∧ (workspaceInitGit inp mf w).2.2 = Except.error ExecErr.gitMerge) := by
  refine ⟨?_, ?_, ?_⟩
  · rcases hb : inp.branch with _ | b <;> cases mf <;>
      simp [tempdirInitGit, hb, handoffOutsideLock]
  · cases mf <;> simp [workspaceInitGit, handoffOutsideLock]
  · intro hmf
    subst hmf
    constructor
    · rcases hb : inp.branch with _ | b <;> simp [tempdirInitGit, hb]
    · simp [workspaceInitGit]

/-- Counterexample to C4 as stated: at a concrete input, the workspace
executor runs the detached checkout and squash merge while the handoff lease
is still held. -/
theorem workspace_merge_inside_lock_cex :
    handoffOutsideLock 0 (workspaceInitGit exInp false exWS).2.1 = false := rfl

/-- Witness for the amended C4: concrete merge failures surface as
GitMergeError in both variants. -/
theorem init_git_lease_and_merge_w :
    (tempdirInitGit exInp true exTD).2.2 = Except.error ExecErr.gitMerge
    ∧ (workspaceInitGit exInp true exWS).2.2 = Except.error ExecErr.gitMerge :=
  (init_git_lease_and_merge exInp true exTD exWS).2.2 rfl

/-- Claim C5: WorkspaceExecutor.cleanup removes EXEC_BASELINE and EXEC_MERGE,
removes EXEC_BRANCH when it is set, restores the originally checked-out HEAD
via the scoped detach exit, and sets EXEC_APPLY to the current
EXEC_CHECKPOINT value exactly when a checkpoint exists and differs from the
value recorded at construction; otherwise EXEC_APPLY is untouched. -/
theorem workspace_cleanup_spec (oc : Option String) (oh : String)
    (s : WorkspaceState) :
    lookupF (workspaceCleanup oc oh s).refs EXEC_BASELINE = none
    ∧ lookupF (workspaceCleanup oc oh s).refs EXEC_MERGE = none
    ∧ lookupF (workspaceCleanup oc oh s).refs EXEC_BRANCH = none
    ∧ (workspaceCleanup oc oh s).head = oh
    ∧ lookupF (workspaceCleanup oc oh s).refs EXEC_APPLY =
        (match lookupF s.refs EXEC_CHECKPOINT with
         | some v =>
             if oc ≠ some (refValRev v) then some (RefVal.direct (refValRev v))
             else lookupF s.refs EXEC_APPLY
         | none => lookupF s.refs EXEC_APPLY) := by
  have nBaM : EXEC_BASELINE ≠ EXEC_MERGE := by decide
  have nMB : EXEC_MERGE ≠ EXEC_BASELINE := by decide
  have nBrBa : EXEC_BRANCH ≠ EXEC_BASELINE := by decide
  have nBrM : EXEC_BRANCH ≠ EXEC_MERGE := by decide
  have nCBa : EXEC_CHECKPOINT ≠ EXEC_BASELINE := by decide
  have nCM : EXEC_CHECKPOINT ≠ EXEC_MERGE := by decide
  have nCBr : EXEC_CHECKPOINT ≠ EXEC_BRANCH := by decide
  have nABa : EXEC_APPLY ≠ EXEC_BASELINE := by decide
  have nAM : EXEC_APPLY ≠ EXEC_MERGE := by decide
  have nABr : EXEC_APPLY ≠ EXEC_BRANCH := by decide
  have hb2 : lookupF (wcR2 s) EXEC_BASELINE = none := by
    unfold wcR2
    rw [lookupF_removeF_ne _ _ _ nBaM, lookupF_removeF_eq]
  have hm2 : lookupF (wcR2 s) EXEC_MERGE = none := by
    unfold wcR2
    rw [lookupF_removeF_eq]
  have hc2 : lookupF (wcR2 s) EXEC_CHECKPOINT = lookupF s.refs EXEC_CHECKPOINT := by
    unfold wcR2
    rw [lookupF_removeF_ne _ _ _ nCM, lookupF_removeF_ne _ _ _ nCBa]
  have ha2 : lookupF (wcR2 s) EXEC_APPLY = lookupF s.refs EXEC_APPLY := by
    unfold wcR2
    rw [lookupF_removeF_ne _ _ _ nAM, lookupF_removeF_ne _ _ _ nABa]
  have hb3 : lookupF (wcR3 s) EXEC_BASELINE = none := by
    rcases hl : lookupF (wcR2 s) EXEC_BRANCH with _ | v <;>
      simp [wcR3, hl, lookupF_removeF_ne _ _ _ (Ne.symm nBrBa), hb2]
  have hm3 : lookupF (wcR3 s) EXEC_MERGE = none := by
    rcases hl : lookupF (wcR2 s) EXEC_BRANCH with _ | v <;>
      simp [wcR3, hl, lookupF_removeF_ne _ _ _ (Ne.symm nBrM), hm2]
  have hbr3 : lookupF (wcR3 s) EXEC_BRANCH = none := by
    rcases hl : lookupF (wcR2 s) EXEC_BRANCH with _ | v <;>
      simp [wcR3, hl, lookupF_removeF_eq]
  have hc3 : lookupF (wcR3 s) EXEC_CHECKPOINT = lookupF s.refs EXEC_CHECKPOINT := by
    rcases hl : lookupF (wcR2 s) EXEC_BRANCH with _ | v <;>
      simp [wcR3, hl, lookupF_removeF_ne _ _ _ nCBr, hc2]
  have ha3 : lookupF (wcR3 s) EXEC_APPLY = lookupF s.refs EXEC_APPLY := by
    rcases hl : lookupF (wcR2 s) EXEC_BRANCH with _ | v <;>
      simp [wcR3, hl, lookupF_removeF_ne _ _ _ nABr, ha2]
  refine ⟨?_, ?_, ?_, rfl, ?_⟩
  · show lookupF (wcR4 oc s) EXEC_BASELINE = none
    rcases hcp : lookupF (wcR3 s) EXEC_CHECKPOINT with _ | v
    · simp [wcR4, hcp, hb3]
    · by_cases hoc : oc ≠ some (refValRev v) <;>
        simp [wcR4, hcp, hoc, hb3, lookupF_setF_ne _ _ _ _ (Ne.symm nABa)]
  · show lookupF (wcR4 oc s) EXEC_MERGE = none
    rcases hcp : lookupF (wcR3 s) EXEC_CHECKPOINT with _ | v
    · simp [wcR4, hcp, hm3]
    · by_cases hoc : oc ≠ some (refValRev v) <;>
        simp [wcR4, hcp, hoc, hm3, lookupF_setF_ne _ _ _ _ (Ne.symm nAM)]
  · show lookupF (wcR4 oc s) EXEC_BRANCH = none
    rcases hcp : lookupF (wcR3 s) EXEC_CHECKPOINT with _ | v
    · simp [wcR4, hcp, hbr3]
    · by_cases hoc : oc ≠ some (refValRev v) <;>
        simp [wcR4, hcp, hoc, hbr3, lookupF_setF_ne _ _ _ _ (Ne.symm nABr)]
  · show lookupF (wcR4 oc s) EXEC_APPLY = _
    rcases hcp : lookupF (wcR3 s) EXEC_CHECKPOINT with _ | v
    · have hcp0 : lookupF s.refs EXEC_CHECKPOINT = none := hc3.symm.trans hcp
      simp [wcR4, hcp, hcp0, ha3]
    · have hcp0 : lookupF s.refs EXEC_CHECKPOINT = some v := hc3.symm.trans hcp
      by_cases hoc : oc ≠ some (refValRev v)
      · simp [wcR4, hcp, hoc, hcp0, lookupF_setF_eq]
      · simp [wcR4, hcp, hoc, hcp0, ha3]

/-- Claim C7 (amended): in both variants the handoff sets EXEC_BRANCH as a
symbolic ref to the requested branch when one is given and otherwise removes
any existing EXEC_BRANCH; TempDirExecutor additionally removes any stale
EXEC_CHECKPOINT from the executor repository, while WorkspaceExecutor leaves
EXEC_CHECKPOINT untouched. -/
theorem init_git_branch_and_checkpoint (inp : InitGitInput) (mf : Bool)
    (s : TempDirState) (w : WorkspaceState) :
    lookupF (tempdirInitGit inp mf s).1.execRefs EXEC_BRANCH
        = inp.branch.map RefVal.symbolic
    ∧ lookupF (tempdirInitGit inp mf s).1.execRefs EXEC_CHECKPOINT = none
    ∧ (mf = false →
        lookupF (workspaceInitGit inp mf w).1.refs EXEC_BRANCH
            = inp.branch.map RefVal.symbolic
        ∧ lookupF (workspaceInitGit inp mf w).1.refs EXEC_CHECKPOINT
            = lookupF w.refs EXEC_CHECKPOINT) := by
  refine ⟨?_, ?_, ?_⟩
  · rw [tempdirInitGit_execRefs]
    exact tdExecRefs_branch_lookup inp s
  · rw [tempdirInitGit_execRefs]
    exact tdExecRefs_checkpoint_lookup inp s
  · intro hmf
    subst hmf
    have hrefs : (workspaceInitGit inp false w).1.refs = wsFinalRefs inp w := rfl
    rw [hrefs]
    exact ⟨wsFinalRefs_branch_lookup inp w, wsFinalRefs_checkpoint inp w⟩

/-- Counterexample to C7 as stated: at a concrete input with a stale
EXEC_CHECKPOINT, WorkspaceExecutor.init_git leaves it in place instead of
removing it. -/
theorem workspace_checkpoint_not_removed_cex :
    ¬ (lookupF (workspaceInitGit exInp false exWSCkpt).1.refs EXEC_CHECKPOINT
        = none) := by
  decide

/-- Witness for the amended C7 at a concrete workspace input with a branch and
a pre-existing checkpoint. -/
theorem init_git_branch_and_checkpoint_w :
    lookupF (workspaceInitGit exInpBr false exWSCkpt).1.refs EXEC_BRANCH
        = some (RefVal.symbolic "feat")
    ∧ lookupF (workspaceInitGit exInpBr false exWSCkpt).1.refs EXEC_CHECKPOINT
        = lookupF exWSCkpt.refs EXEC_CHECKPOINT :=
  (init_git_branch_and_checkpoint exInpBr false exTD exWSCkpt).2.2 rfl

-- ## Retry budget

/-- One-step unfolding of the retry loop. -/
theorem retryLoop_succ {E A : Type} (T : Nat) (retryable : E → Bool)
    (f : Nat → Except E A) (attempt rest : Nat) :
    retryLoop T retryable f attempt (rest + 1)
      = (match f attempt with
         | Except.ok a => (Except.ok a, 1, 0)
         | Except.error e =>
             if retryable e then
               if rest = 0 then (Except.error e, 1, 0)
               else
                 ((retryLoop T retryable f (attempt + 1) rest).1,
                  (retryLoop T retryable f (attempt + 1) rest).2.1 + 1,
                  (retryLoop T retryable f (attempt + 1) rest).2.2 + T)
             else (Except.error e, 1, 0)) := rfl

/-- When every call of the body fails with a retryable error, the retry loop
makes exactly `tries` calls, sleeps `timeoutSec` between consecutive calls,
and re-raises that error. -/
theorem retryLoop_const_error {E A : Type} (T : Nat) (retryable : E → Bool)
    (f : Nat → Except E A) (e : E) (hf : ∀ i, f i = Except.error e)
    (hr : retryable e = true) :
    ∀ tries attempt, 1 ≤ tries →
      retryLoop T retryable f attempt tries
        = (Except.error e, tries, (tries - 1) * T) := by
  intro tries
  induction tries with
  | zero => intro attempt h; exact absurd h (by omega)
  | succ n ih =>
      intro attempt _
      cases n with
      | zero => simp [retryLoop_succ, hf attempt, hr]
      | succ m =>
          have hrec := ih (attempt + 1) (by omega)
          rw [retryLoop_succ, hf attempt, hrec]
          simp [hr, Nat.succ_mul]

/-- Claim C8: with the lock held forever by another writer, init_git in both
variants makes exactly 180 calls at 1-second spacing (179 seconds of sleep)
and then fails with LockError instead of blocking; an error that is not lock
contention (a merge failure) is raised after a single call, not retried. -/
theorem init_git_retry_budget (inp : InitGitInput) (mf : Bool)
    (s : TempDirState) (w : WorkspaceState) :
    (∀ lockFreeAt : Nat → Bool, (∀ i, lockFreeAt i = false) →
        tempdirInitGitRetried lockFreeAt mf inp s
            = (Except.error ExecErr.lockError, 180, 179)
        ∧ workspaceInitGitRetried lockFreeAt mf inp w
            = (Except.error ExecErr.lockError, 180, 179))
    ∧ (∀ lockFreeAt : Nat → Bool, lockFreeAt 0 = true → mf = true →
        tempdirInitGitRetried lockFreeAt mf inp s
            = (Except.error ExecErr.gitMerge, 1, 0)
        ∧ workspaceInitGitRetried lockFreeAt mf inp w
            = (Except.error ExecErr.gitMerge, 1, 0)) := by
  constructor
  · intro lf hlf
    have h1 : ∀ i, tempdirAttempt lf mf inp s i = Except.error ExecErr.lockError := by
      intro i; simp [tempdirAttempt, hlf i]
    have h2 : ∀ i, workspaceAttempt lf mf inp w i = Except.error ExecErr.lockError := by
      intro i; simp [workspaceAttempt, hlf i]
    constructor
    · have hres := retryLoop_const_error 1 isLockError _ ExecErr.lockError h1 rfl
        180 0 (by omega)
      simpa [tempdirInitGitRetried] using hres
    · have hres := retryLoop_const_error 1 isLockError _ ExecErr.lockError h2 rfl
        180 0 (by omega)
      simpa [workspaceInitGitRetried] using hres
  · intro lf h0 hmf
    subst hmf
    have ht : tempdirAttempt lf true inp s 0 = Except.error ExecErr.gitMerge := by
      simp [tempdirAttempt, h0, tempdirInitGit]
    have hw : workspaceAttempt lf true inp w 0 = Except.error ExecErr.gitMerge := by
      simp [workspaceAttempt, h0, workspaceInitGit]
    constructor
    · show retryLoop 1 isLockError (tempdirAttempt lf true inp s) 0 180 = _
      rw [show (180 : Nat) = Nat.succ 179 by rfl]
      simp [retryLoop, ht, isLockError]
    · show retryLoop 1 isLockError (workspaceAttempt lf true inp w) 0 180 = _
      rw [show (180 : Nat) = Nat.succ 179 by rfl]
      simp [retryLoop, hw, isLockError]

/-- Witness for C8: a permanently held lock at concrete inputs. -/
theorem init_git_retry_budget_w :
    tempdirInitGitRetried (fun _ => false) false exInp exTD
        = (Except.error ExecErr.lockError, 180, 179)
    ∧ workspaceInitGitRetried (fun _ => false) false exInp exWS
        = (Except.error ExecErr.lockError, 180, 179) :=
  (init_git_retry_budget exInp false exTD exWS).1 (fun _ => false) (fun _ => rfl)

-- ## Temp directory creation

theorem mem_le_maxDir (l : List Nat) (x : Nat) (hx : x ∈ l) : x ≤ maxDir l := by
  induction l with
  | nil => cases hx
  | cons a t ih =>
      rcases List.mem_cons.mp hx with h1 | h2
      · subst h1
        exact Nat.le_max_left x (maxDir t)
      · exact Nat.le_trans (ih h2) (Nat.le_max_right a (maxDir t))

theorem mkdtemp_fresh (fs : TmpFS) : (mkdtemp fs).1 ∉ fs.dirs := by
  intro hmem
  have hle := mem_le_maxDir fs.dirs _ hmem
  simp [mkdtemp] at hle

/-- Claim C9: from_stash_entry creates a fresh, uniquely named temp directory
in the temp area; when constructing the executor there raises, the directory
is removed (the area is exactly as before) and the exception propagates; on
success the returned executor root is that new directory, present in the
area. -/
theorem from_stash_entry_tempdir (fs : TmpFS) :
    (mkdtemp fs).1 ∉ fs.dirs
    ∧ from_stash_entry false fs
        = Except.ok (⟨(mkdtemp fs).1 :: fs.dirs⟩, (mkdtemp fs).1)
    ∧ from_stash_entry true fs = Except.error ⟨fs.dirs⟩ := by
  refine ⟨mkdtemp_fresh fs, rfl, ?_⟩
  have h : ∀ x ∈ fs.dirs, x ≠ maxDir fs.dirs + 1 := by
    intro x hx
    have hle := mem_le_maxDir fs.dirs x hx
    omega
  simp [from_stash_entry, mkdtemp]
  exact h

/-- Witness for C9 at a concrete two-directory temp area. -/
theorem from_stash_entry_tempdir_w :
    (2 : Nat) ∉ ([1, 0] : List Nat)
    ∧ from_stash_entry false ⟨[1, 0]⟩ = Except.ok (⟨[2, 1, 0]⟩, 2)
    ∧ from_stash_entry true ⟨[1, 0]⟩ = Except.error ⟨[1, 0]⟩ :=
  from_stash_entry_tempdir ⟨[1, 0]⟩

-- ## Worktree view grouping

theorem dedup_const {α : Type} [DecidableEq α] (c : α) :
    ∀ l : List α, (∀ x ∈ l, x = c) → l.dedup = [] ∨ l.dedup = [c] := by
  intro l
  induction l with
  | nil => intro _; exact Or.inl rfl
  | cons a t ih =>
      intro h
      have ha : a = c := h a (List.mem_cons_self a t)
      have ht : ∀ x ∈ t, x = c := fun x hx => h x (List.mem_cons_of_mem a hx)
      rcases ih ht with h0 | h1
      · have hnot : a ∉ t := by
          intro hmem
          have hd : a ∈ t.dedup := List.mem_dedup.mpr hmem
          rw [h0] at hd
          cases hd
        right
        rw [List.dedup_cons_of_not_mem hnot, h0, ha]
      · have hmem : a ∈ t := by
          have hcd : c ∈ t.dedup := by rw [h1]; exact List.mem_cons_self c []
          have hct : c ∈ t := List.mem_dedup.mp hcd
          rw [ha]; exact hct
        right
        rw [List.dedup_cons_of_mem hmem, h1]

/-- Claim C10: when the view outputs reference at most one distinct remote,
worktree_view_by_remotes yields exactly one pair holding the unfiltered view,
under that remote (None when there are no outputs); otherwise it yields
exactly one pair per distinct remote, each view restricted to the outputs
whose remote matches the pair. -/
theorem worktree_view_by_remotes_spec (view : List Output) :
    ((∀ o1 ∈ view, ∀ o2 ∈ view, o1.remote = o2.remote) →
      ∃ y, worktree_view_by_remotes view = [(y, view)]
        ∧ (view = [] → y = none)
        ∧ ∀ o ∈ view, o.remote = y)
    ∧ ((∃ o1 ∈ view, ∃ o2 ∈ view, o1.remote ≠ o2.remote) →
      ((worktree_view_by_remotes view).map Prod.fst).Nodup
      ∧ (∀ r, r ∈ (worktree_view_by_remotes view).map Prod.fst ↔
            ∃ o ∈ view, o.remote = r)
      ∧ ∀ p ∈ worktree_view_by_remotes view,
          p.2 = view.filter (fun o => decide (o.remote = p.1))) := by
  constructor
  · rcases view with _ | ⟨o0, rest⟩
    · intro _
      exact ⟨none, rfl, fun _ => rfl, by simp⟩
    · intro hall
      have hconst : ∀ x ∈ (o0 :: rest).map (fun o => o.remote), x = o0.remote := by
        intro x hx
        rcases List.mem_map.mp hx with ⟨o, ho, rfl⟩
        exact hall o ho o0 (List.mem_cons_self _ _)
      rcases dedup_const o0.remote _ hconst with h0 | h1
      · exfalso
        have hm : o0.remote ∈ ((o0 :: rest).map (fun o => o.remote)).dedup :=
          List.mem_dedup.mpr (List.mem_map.mpr ⟨o0, List.mem_cons_self _ _, rfl⟩)
        rw [h0] at hm
        cases hm
      · refine ⟨o0.remote, ?_, by simp, ?_⟩
        · have h1x : ((o0 :: rest).map (fun o => o.remote)).dedup = [o0.remote] := h1
          simp only [List.map_cons] at h1x
          simp [worktree_view_by_remotes, h1x]
        · intro o ho
          exact hall o ho o0 (List.mem_cons_self _ _)
  · intro hex
    rcases hex with ⟨o1, ho1, o2, ho2, hne⟩
    have h1m : o1.remote ∈ (view.map (fun o => o.remote)).dedup :=
      List.mem_dedup.mpr (List.mem_map.mpr ⟨o1, ho1, rfl⟩)
    have h2m : o2.remote ∈ (view.map (fun o => o.remote)).dedup :=
      List.mem_dedup.mpr (List.mem_map.mpr ⟨o2, ho2, rfl⟩)
    have hlen : ¬ ((view.map (fun o => o.remote)).dedup.length ≤ 1) := by
      intro hle
      rcases hd : (view.map (fun o => o.remote)).dedup with _ | ⟨a, t⟩
      · rw [hd] at h1m; cases h1m
      · rw [hd] at h1m h2m hle
        have ht : t = [] := by
          cases t with
          | nil => rfl
          | cons b tb => simp at hle
        subst ht
        have e1 := List.mem_singleton.mp h1m
        have e2 := List.mem_singleton.mp h2m
        exact hne (e1.trans e2.symm)
    have hview : worktree_view_by_remotes view
        = ((view.map (fun o => o.remote)).dedup).map
            (fun r => (r, view.filter (fun o => decide (o.remote = r)))) := by
      simp [worktree_view_by_remotes, hlen]
    have hmapfst : (worktree_view_by_remotes view).map Prod.fst
        = (view.map (fun o => o.remote)).dedup := by
      rw [hview, List.map_map]
      have hcomp : (Prod.fst ∘ fun r : Option String =>
          (r, view.filter (fun o => decide (o.remote = r)))) = id := rfl
      rw [hcomp, List.map_id]
    refine ⟨?_, ?_, ?_⟩
    · rw [hmapfst]
      exact List.nodup_dedup _
    · intro r
      rw [hmapfst]
      simp [List.mem_dedup, List.mem_map]
    · intro p hp
      rw [hview] at hp
      rcases List.mem_map.mp hp with ⟨r, hrm, rfl⟩
      rfl

/-- Witness for C10: a two-output single-remote view and a two-remote view. -/
theorem worktree_view_by_remotes_spec_w :
    (∃ y, worktree_view_by_remotes exViewOne = [(y, exViewOne)]
      ∧ (exViewOne = [] → y = none)
      ∧ ∀ o ∈ exViewOne, o.remote = y)
    ∧ (((worktree_view_by_remotes exViewTwo).map Prod.fst).Nodup
      ∧ (∀ r, r ∈ (worktree_view_by_remotes exViewTwo).map Prod.fst ↔
            ∃ o ∈ exViewTwo, o.remote = r)
      ∧ ∀ p ∈ worktree_view_by_remotes exViewTwo,
          p.2 = exViewTwo.filter (fun o => decide (o.remote = p.1))) :=
  ⟨(worktree_view_by_remotes_spec exViewOne).1 (by decide),
   (worktree_view_by_remotes_spec exViewTwo).2 (by decide)⟩

end Dvc
